import Mathlib

/-!
# Verification of `zipline/utils/run_algo.py`

A shallow embedding of the backtest run orchestrator in
`zipline/utils/run_algo.py`, together with theorems checking the
natural-language specification against it.

Modelling conventions:

* Opaque runtime objects (metric-set instances, blotter instances, data
  portals, performance records, callbacks) are represented by `Nat` handles.
* Side effects that the spec talks about (reading market data, loading the
  bundle, building the data portal, running the simulation, printing or
  persisting the result, evaluating a definition) are recorded as an ordered
  `Event` trace.
* External collaborators (Python `eval`, the default trading calendar,
  `load_market_data`, the extension registries, the set of US-equity pricing
  columns, the success or failure of loading an extension) are fields of an
  `Env` record so theorems quantify over all of their behaviours.
* Python exceptions become an `Except`/`Option` error value; the distinct
  error messages raised by `run_algo.py` become distinct constructors of
  `RunError` carrying the data interpolated into the message.
-/

/-- Observable side effects of a run, in program order. -/
inductive Event
  | loadMarketData
  | evalDefine (name : String)
  | printAlgoSource
  | loadBundle (bundle : String)
  | buildDataPortal
  | runSim
  | echoPerf
  | persistPerf (path : String)
  deriving DecidableEq

/-- The errors `_run` can raise, with the data its messages interpolate. -/
inductive RunError
  | invalidDefine (assign : String)
  | defineEvalFailed (name : String) (cause : String)
  | defineWithoutAlgotext
  | emptyDateRange (startDate endDate : String)
  | unknownComponent (kind ident : String)
  | extensionLoad (ext : String)
  deriving DecidableEq

/-- Process-wide state touched by `load_extensions`: the module-level
`_loaded_extensions` set (modelled as a duplicate-free insert list), plus a
log of extension executions and of `warnings.warn` calls, so that theorems
can talk about how often an extension was executed and what was warned. -/
structure ExtState where
  loaded : List String
  execLog : List String
  warnings : List (String × String)
  deriving DecidableEq

/-- The `for ext in extensions` loop of `load_extensions`
(`run_algo.py` lines 253-274).  `ok ext` tells whether executing/importing
`ext` succeeds; `cause ext` is the message of the exception it raises
otherwise.  Returns the new state and `some ext` when the loop re-raised
while loading `ext` (only possible under `strict`). -/
def loadExtList (ok : String → Bool) (cause : String → String)
    (strict reload : Bool) : List String → ExtState → ExtState × Option String
  | [], st => (st, none)
  | ext :: rest, st =>
    if ext ∈ st.loaded ∧ reload = false then
      loadExtList ok cause strict reload rest st
    else
      let st1 : ExtState := { st with execLog := st.execLog ++ [ext] }
      if ok ext then
        loadExtList ok cause strict reload rest
          { st1 with loaded := st1.loaded.insert ext }
      else if strict then
        (st1, some ext)
      else
        loadExtList ok cause strict reload rest
          { st1 with warnings := st1.warnings ++ [(ext, cause ext)] }

/-- `load_extensions(default, extensions, strict, environ, reload=False)`
(`run_algo.py` lines 226-274).  `default_extension_path` stands for
`pth.default_extension(environ=environ)`; when `dflt` is set it is prepended
so it loads before all listed extensions. -/
def load_extensions (ok : String → Bool) (cause : String → String)
    (dflt : Bool) (extensions : List String) (strict : Bool)
    (default_extension_path : String) (reload : Bool) (st : ExtState) :
    ExtState × Option String :=
  loadExtList ok cause strict reload
    (if dflt then default_extension_path :: extensions else extensions) st

/-- Python `assign.split('=', maxsplit)` restricted to the separator `'='`:
splits at each `'='` from the left, performing at most `m` splits. -/
def splitEq : List Char → Nat → List (List Char)
  | [], _ => [[]]
  | c :: cs, m =>
    if c = '=' ∧ m ≠ 0 then
      [] :: splitEq cs (m - 1)
    else
      match splitEq cs m with
      | [] => [[c]]
      | p :: ps => (c :: p) :: ps

/-- The `name, value = assign.split('=', 2)` step of the defines loop
(`run_algo.py` line 94): the two-element unpack succeeds exactly when the
split produced two parts; otherwise Python raises `ValueError`, which the
loop turns into the invalid-define error. -/
def parseDefine (assign : String) : Option (String × String) :=
  match splitEq assign.data 2 with
  | [n, v] => some (String.mk n, String.mk v)
  | _ => none

/-- The evaluation namespace: an ordered name-to-value mapping mirroring the
Python `namespace` dict (values are opaque `Nat` handles). -/
def Namespace := List (String × Nat)
  deriving DecidableEq

/-- `namespace[name] = v`: replace the binding in place or append it. -/
def nsSet : Namespace → String → Nat → Namespace
  | [], k, v => [(k, v)]
  | (k1, v1) :: rest, k, v =>
    if k1 = k then (k, v) :: rest else (k1, v1) :: nsSet rest k v

/-- Dictionary lookup in the evaluation namespace. -/
def nsLookup : Namespace → String → Option Nat
  | [], _ => none
  | (k1, v1) :: rest, k => if k1 = k then some v1 else nsLookup rest k

/-- Result of the defines loop: the (possibly partially populated)
namespace, the evaluation events, and the error, if any. -/
structure DefinesResult where
  ns : Namespace
  events : List Event
  err : Option RunError
  deriving DecidableEq

/-- The `for assign in defines` loop (`run_algo.py` lines 92-107).
`evalE e ns` models Python `eval(e, namespace)`: `Except.error msg` is an
exception with message `msg`.  The namespace is mutated in place, so on
failure the bindings made so far are kept and returned with the error. -/
def processDefines (evalE : String → Namespace → Except String Nat) :
    List String → Namespace → DefinesResult
  | [], ns => ⟨ns, [], none⟩
  | assign :: rest, ns =>
    match parseDefine assign with
    | none => ⟨ns, [], some (RunError.invalidDefine assign)⟩
    | some (n, e) =>
      match evalE e ns with
      | Except.error msg =>
        ⟨ns, [Event.evalDefine n], some (RunError.defineEvalFailed n msg)⟩
      | Except.ok v =>
        let r := processDefines evalE rest (nsSet ns n v)
        ⟨r.ns, Event.evalDefine n :: r.events, r.err⟩

/-- Resolution of the `metrics_set` and `blotter` arguments
(`run_algo.py` lines 176-186): an instance (`Sum.inl`) passes through
unchanged; a string is looked up in the registry for its kind.

Modelled from the spec: the registry lookup itself (`metrics.load` /
`zipline.extensions.load`) is not under `src/`; per the spec it fails with
an unknown-component error naming the identifier and the component kind,
which `_run` re-raises (`raise _RunAlgoError(str(e))`). -/
def resolveComponent (kind : String) (registry : String → Option Nat) :
    Nat ⊕ String → Except RunError Nat
  | Sum.inl inst => Except.ok inst
  | Sum.inr name =>
    match registry name with
    | some inst => Except.ok inst
    | none => Except.error (RunError.unknownComponent kind name)

/-- The `choose_loader` closure (`run_algo.py` lines 169-174): `columns`
stands for the external set `USEquityPricing.columns` and
`pipeline_loader` for the `USEquityPricingLoader` built from the bundle. -/
def choose_loader (columns : List String) (pipeline_loader : Nat)
    (column : String) : Except String Nat :=
  if column ∈ columns then Except.ok pipeline_loader
  else Except.error ("No PipelineLoader registered for column " ++ column ++ ".")

/-- `os.devnull`, the sentinel that makes `_run` write nothing. -/
def os_devnull : String := "/dev/null"

/-- The output-routing step (`run_algo.py` lines 214-217) as the events it
emits: echo on `"-"`, nothing on `os.devnull`, persist otherwise. -/
def outputEvents (output : String) : List Event :=
  if output = "-" then [Event.echoPerf]
  else if output = os_devnull then []
  else [Event.persistPerf output]

/-- External collaborators of `run_algo.py`, quantified over in theorems. -/
structure Env where
  /-- `get_calendar('XNYS')`, as its `session_distance` method. -/
  default_calendar : String → String → Int
  /-- Python `eval(value, namespace)` for definition expressions. -/
  eval_expr : String → Namespace → Except String Nat
  /-- `get_ipython().user_ns`, used when `local_namespace` is set. -/
  ip_namespace : Namespace
  /-- The metrics-set registry behind `metrics.load`. -/
  metrics_registry : String → Option Nat
  /-- The blotter registry behind `zipline.extensions.load(Blotter, ·)`. -/
  blotter_registry : String → Option Nat
  /-- The external column set `USEquityPricing.columns`. -/
  us_equity_pricing_columns : List String
  /-- The performance record returned by `TradingAlgorithm(...).run()`. -/
  perf : Nat
  /-- Whether executing/importing a given extension succeeds. -/
  ext_load_ok : String → Bool
  /-- The exception message when loading a given extension fails. -/
  ext_load_cause : String → String
  /-- `pth.default_extension(environ=environ)`. -/
  default_extension_path : String

/-- The parameters of `_run` (`run_algo.py` lines 56-77) that the modelled
behaviour can observe.  Callback and pass-through parameters are opaque
handles; `algofile` holds the content that `algofile.read()` would return. -/
structure Args where
  handle_data : Option Nat
  /-- the `initialize` callback -/
  init_fn : Option Nat
  before_trading_start : Option Nat
  analyze : Option Nat
  algofile : Option String
  algotext : Option String
  defines : List String
  data_frequency : String
  capital_base : Nat
  bundle : String
  bundle_timestamp : Option Nat
  custom_data_portal : Option Nat
  start : String
  end_ : String
  output : String
  trading_calendar : Option (String → String → Int)
  print_algo : Bool
  metrics_set : Nat ⊕ String
  local_namespace : Bool
  environ : Nat
  blotter : Nat ⊕ String
  benchmark_returns : Option Nat

/-- Lines 85-116 of `_run`: build the evaluation namespace from `defines`
when `algotext` is given; raise the define-without-algotext error when
`defines` is non-empty without it; otherwise fall back to reading
`algofile` as the algorithm text.  Returns the definition-evaluation events
and either an error or the namespace with the effective algorithm text. -/
def namespaceStage (env : Env) (a : Args) :
    List Event × Except RunError (Namespace × Option String) :=
  match a.algotext with
  | some t =>
    let ns0 := if a.local_namespace then env.ip_namespace else []
    let r := processDefines env.eval_expr a.defines ns0
    match r.err with
    | some e => (r.events, Except.error e)
    | none => (r.events, Except.ok (r.ns, some t))
  | none =>
    match a.defines with
    | _ :: _ => ([], Except.error RunError.defineWithoutAlgotext)
    | [] => ([], Except.ok ([], a.algofile))

/-- `_run` (`run_algo.py` lines 56-219), in source order: load benchmark
market data when none was supplied (line 82); the namespace stage (85-116);
echo the source when `print_algo` (118-127); default the calendar and
validate the session distance (129-139); load the bundle (141); build the
data portal unless a custom one was given (151-161); resolve the metrics
set and the blotter (176-186); run the simulation (188-212); route the
output (214-217); return the performance record (219). -/
def _run (env : Env) (a : Args) : List Event × Except RunError Nat :=
  let benchEvents := if a.benchmark_returns.isNone then [Event.loadMarketData] else []
  match namespaceStage env a with
  | (evs, Except.error e) => (benchEvents ++ evs, Except.error e)
  | (evs, Except.ok (_ns, _algotext)) =>
    let printEvents := if a.print_algo then [Event.printAlgoSource] else []
    let cal := a.trading_calendar.getD env.default_calendar
    if cal a.start a.end_ < 1 then
      (benchEvents ++ evs ++ printEvents,
        Except.error (RunError.emptyDateRange a.start a.end_))
    else
      let ev3 := benchEvents ++ evs ++ printEvents ++ [Event.loadBundle a.bundle]
        ++ (if a.custom_data_portal.isNone then [Event.buildDataPortal] else [])
      match resolveComponent "metrics set" env.metrics_registry a.metrics_set with
      | Except.error e => (ev3, Except.error e)
      | Except.ok _m =>
        match resolveComponent "blotter" env.blotter_registry a.blotter with
        | Except.error e => (ev3, Except.error e)
        | Except.ok _b =>
          (ev3 ++ [Event.runSim] ++ outputEvents a.output, Except.ok env.perf)

/-- `run_algorithm` (`run_algo.py` lines 277-391): load the extensions,
then call `_run` with `algofile=None`, `algotext=None`, `defines=()`,
`output=os.devnull`, `print_algo=False`, `local_namespace=False` and the
remaining arguments passed through.  A strict extension failure propagates
and the run never starts. -/
def run_algorithm (env : Env) (st : ExtState)
    (start end_ : String) (init_fn : Nat) (capital_base : Nat)
    (handle_data before_trading_start analyze : Option Nat)
    (data_frequency : String) (bundle : String) (bundle_timestamp : Option Nat)
    (data_portal : Option Nat)
    (trading_calendar : Option (String → String → Int))
    (metrics_set : Nat ⊕ String) (benchmark_returns : Option Nat)
    (default_extension : Bool) (extensions : List String)
    (strict_extensions : Bool) (environ : Nat) (blotter : Nat ⊕ String) :
    ExtState × (List Event × Except RunError Nat) :=
  match load_extensions env.ext_load_ok env.ext_load_cause
      default_extension extensions strict_extensions
      env.default_extension_path false st with
  | (st2, some failedExt) =>
    (st2, ([], Except.error (RunError.extensionLoad failedExt)))
  | (st2, none) =>
    (st2, _run env {
      handle_data := handle_data
      init_fn := some init_fn
      before_trading_start := before_trading_start
      analyze := analyze
      algofile := none
      algotext := none
      defines := []
      data_frequency := data_frequency
      capital_base := capital_base
      bundle := bundle
      bundle_timestamp := bundle_timestamp
      custom_data_portal := data_portal
      start := start
      end_ := end_
      output := os_devnull
      trading_calendar := trading_calendar
      print_algo := false
      metrics_set := metrics_set
      local_namespace := false
      environ := environ
      blotter := blotter
      benchmark_returns := benchmark_returns })

/-! ## Splitting of definition assignment strings (claim C4) -/

/-- Number of `'='` characters in a string's character list. -/
def eqCount : List Char → Nat
  | [] => 0
  | c :: cs => (if c = '=' then 1 else 0) + eqCount cs

theorem splitEq_ne_nil (cs : List Char) (m : Nat) : splitEq cs m ≠ [] := by
  cases cs with
  | nil => simp [splitEq]
  | cons c cs =>
    unfold splitEq
    split
    · simp
    · split <;> simp

theorem splitEq_length (cs : List Char) :
    ∀ m, (splitEq cs m).length = min (eqCount cs + 1) (m + 1) := by
  induction cs with
  | nil => intro m; simp [splitEq, eqCount]
  | cons c cs ih =>
    intro m
    unfold splitEq
    by_cases hc : c = '=' ∧ m ≠ 0
    · rw [if_pos hc]
      obtain ⟨hceq, hm⟩ := hc
      obtain ⟨k, rfl⟩ : ∃ k, m = k + 1 :=
        ⟨m - 1, (Nat.succ_pred_eq_of_pos (Nat.pos_of_ne_zero hm)).symm⟩
      rw [show k + 1 - 1 = k from rfl, List.length_cons, ih k]
      have hce : eqCount (c :: cs) = 1 + eqCount cs := by simp [eqCount, hceq]
      rw [hce]
      omega
    · rw [if_neg hc]
      rcases h : splitEq cs m with _ | ⟨p, ps⟩
      · exact absurd h (splitEq_ne_nil cs m)
      · have hlen := ih m
        rw [h] at hlen
        simp only [List.length_cons] at hlen ⊢
        by_cases hceq : c = '='
        · have hm : m = 0 := by
            by_contra hm0
            exact hc ⟨hceq, hm0⟩
          subst hm
          simp only [eqCount, hceq, if_pos]
          omega
        · simp only [eqCount, hceq, if_neg, ite_false]
          omega

theorem splitEq_no_eq (cs : List Char) :
    ∀ m, eqCount cs = 0 → splitEq cs m = [cs] := by
  induction cs with
  | nil => intro m _; simp [splitEq]
  | cons c cs ih =>
    intro m h
    have hceq : ¬ c = '=' := by
      intro hc
      simp [eqCount, hc] at h
    have hcs : eqCount cs = 0 := by simpa [eqCount, hceq] using h
    unfold splitEq
    rw [if_neg (by tauto), ih m hcs]

theorem splitEq_one_eq (cs : List Char) :
    ∀ m, m ≠ 0 → eqCount cs = 1 →
      splitEq cs m = [cs.takeWhile (fun x => x != '='),
        (cs.dropWhile (fun x => x != '=')).tail] := by
  induction cs with
  | nil => intro m _ h; simp [eqCount] at h
  | cons c cs ih =>
    intro m hm h
    unfold splitEq
    by_cases hceq : c = '='
    · rw [if_pos ⟨hceq, hm⟩]
      have h0 : eqCount cs = 0 := by simpa [eqCount, hceq] using h
      rw [splitEq_no_eq cs (m - 1) h0]
      subst hceq
      simp [List.takeWhile, List.dropWhile]
    · rw [if_neg (by tauto)]
      have h1 : eqCount cs = 1 := by simpa [eqCount, hceq] using h
      rw [ih m hm h1]
      simp [List.takeWhile_cons, List.dropWhile_cons, hceq]

/-- `parseDefine` fails exactly when the number of `'='` in the string is
not one, and on exactly one `'='` it splits at it. -/
theorem parseDefine_eq_one (s : String) :
    (parseDefine s = none ↔ eqCount s.data ≠ 1) ∧
    (eqCount s.data = 1 →
      parseDefine s = some (String.mk (s.data.takeWhile (fun x => x != '=')),
        String.mk ((s.data.dropWhile (fun x => x != '=')).tail))) := by
  have hone : eqCount s.data = 1 →
      parseDefine s = some (String.mk (s.data.takeWhile (fun x => x != '=')),
        String.mk ((s.data.dropWhile (fun x => x != '=')).tail)) := by
    intro h1
    unfold parseDefine
    rw [splitEq_one_eq s.data 2 (by omega) h1]
  refine ⟨⟨?_, ?_⟩, hone⟩
  · intro hnone h1
    rw [hone h1] at hnone
    cases hnone
  · intro hne
    have hlen := splitEq_length s.data 2
    unfold parseDefine
    rcases hl : splitEq s.data 2 with _ | ⟨p, _ | ⟨q, _ | ⟨r, ps⟩⟩⟩
    · rfl
    · rfl
    · rw [hl] at hlen
      simp only [List.length_cons, List.length_nil] at hlen
      omega
    · rfl

/-- Only a string whose split-unpack failed can be reported in the
invalid-define error. -/
theorem processDefines_invalid (evalE : String → Namespace → Except String Nat) :
    ∀ (l : List String) (ns : Namespace) (t : String),
      (processDefines evalE l ns).err = some (RunError.invalidDefine t) →
        parseDefine t = none := by
  intro l
  induction l with
  | nil => intro ns t h; simp [processDefines] at h
  | cons assign rest ih =>
    intro ns t h
    rw [processDefines] at h
    split at h
    next hp =>
      simp only at h
      cases h
      exact hp
    next n e hp =>
      split at h
      next msg he => simp at h
      next v he => exact ih (nsSet ns n v) t (by simpa using h)

/-- C4 (counterexample): the assignment string `"a=b=c"` contains `'='`,
yet the builder rejects it with the invalid-define error instead of
splitting it at the first `'='`: `assign.split('=', 2)` yields three parts
and the two-element unpack raises.  So the builder does not fail exactly
when no `'='` is present. -/
theorem defines_split_counterexample :
    ('=' ∈ "a=b=c".data) ∧ parseDefine "a=b=c" = none ∧
    processDefines (fun _ _ => Except.ok 0) ["a=b=c"] [] =
      ⟨[], [], some (RunError.invalidDefine "a=b=c")⟩ := by
  refine ⟨by decide, by decide, by decide⟩

/-- C4 (amended): the builder accepts exactly the assignment strings with
exactly one `'='`; such a string splits at that `'='` into the name (the
text before it) and the full remaining expression text (after it), while a
string whose `'='` count differs from one is rejected with the
invalid-define (DefinitionSyntaxError) error before any evaluation. -/
theorem defines_split_spec (evalE : String → Namespace → Except String Nat)
    (s : String) (rest l : List String) (ns : Namespace) :
    (eqCount s.data ≠ 1 →
      processDefines evalE (s :: rest) ns =
        ⟨ns, [], some (RunError.invalidDefine s)⟩) ∧
    ((processDefines evalE l ns).err = some (RunError.invalidDefine s) →
      eqCount s.data ≠ 1) ∧
    (eqCount s.data = 1 →
      parseDefine s = some (String.mk (s.data.takeWhile (fun x => x != '=')),
        String.mk ((s.data.dropWhile (fun x => x != '=')).tail))) := by
  refine ⟨?_, ?_, (parseDefine_eq_one s).2⟩
  · intro hne
    have hp : parseDefine s = none := (parseDefine_eq_one s).1.mpr hne
    rw [processDefines, hp]
  · intro herr
    exact (parseDefine_eq_one s).1.mp (processDefines_invalid evalE l ns s herr)

/-- C4 (witness): the amended statement at `"a=b=c"` and `"a=b"`. -/
theorem defines_split_spec_witness :
    processDefines (fun _ _ => Except.ok 0) ["a=b=c"] [] =
      ⟨[], [], some (RunError.invalidDefine "a=b=c")⟩ ∧
    parseDefine "a=b" =
      some (String.mk ("a=b".data.takeWhile (fun x => x != '=')),
        String.mk (("a=b".data.dropWhile (fun x => x != '=')).tail)) :=
  ⟨(defines_split_spec (fun _ _ => Except.ok 0) "a=b=c" [] [] []).1 (by decide),
   (defines_split_spec (fun _ _ => Except.ok 0) "a=b" [] [] []).2.2 (by decide)⟩

/-! ## Left-to-right definition evaluation (claim C5) -/

/-- Setting then looking up a name in the evaluation namespace. -/
theorem nsLookup_nsSet : ∀ (ns : Namespace) (k : String) (v : Nat),
    nsLookup (nsSet ns k v) k = some v := by
  intro ns
  induction ns with
  | nil => intro k v; simp [nsSet, nsLookup]
  | cons kv rest ih =>
    intro k v
    obtain ⟨k1, v1⟩ := kv
    by_cases hk : k1 = k
    · simp [nsSet, nsLookup, hk]
    · simp [nsSet, nsLookup, hk, ih]

/-- The defines loop processes a concatenation left to right, stopping at
the first error. -/
theorem processDefines_append (evalE : String → Namespace → Except String Nat) :
    ∀ (l1 l2 : List String) (ns : Namespace),
      processDefines evalE (l1 ++ l2) ns =
        match processDefines evalE l1 ns with
        | ⟨ns1, evs, none⟩ =>
          let r := processDefines evalE l2 ns1
          ⟨r.ns, evs ++ r.events, r.err⟩
        | ⟨ns1, evs, some e⟩ => ⟨ns1, evs, some e⟩ := by
  intro l1
  induction l1 with
  | nil => intro l2 ns; simp [processDefines]
  | cons assign rest ih =>
    intro l2 ns
    rw [List.cons_append]
    rcases hp : parseDefine assign with _ | ⟨n, e⟩
    · simp only [processDefines, hp]
    · rcases he : evalE e ns with msg | v
      · simp only [processDefines, hp, he]
      · simp only [processDefines, hp, he, ih l2 (nsSet ns n v)]
        rcases hr : processDefines evalE rest (nsSet ns n v) with ⟨ns1, evs1, err1⟩
        cases err1 <;> rfl

/-- C5: the namespace is populated left to right: after the earlier
assignments produced namespace `ns1`, the next assignment's expression is
evaluated against exactly `ns1` and its name is bound to that value; if the
evaluation raises, the loop stops with the evaluation error carrying the
name and the original cause, the earlier bindings `ns1` still in place. -/
theorem defines_left_to_right (evalE : String → Namespace → Except String Nat)
    (pre post : List String) (d : String) (ns0 ns1 : Namespace)
    (evs : List Event) (n e : String)
    (hpre : processDefines evalE pre ns0 = ⟨ns1, evs, none⟩)
    (hparse : parseDefine d = some (n, e)) :
    (∀ v, evalE e ns1 = Except.ok v →
      processDefines evalE (pre ++ d :: post) ns0 =
        (let r := processDefines evalE post (nsSet ns1 n v)
         ⟨r.ns, evs ++ Event.evalDefine n :: r.events, r.err⟩) ∧
      nsLookup (nsSet ns1 n v) n = some v) ∧
    (∀ msg, evalE e ns1 = Except.error msg →
      processDefines evalE (pre ++ d :: post) ns0 =
        ⟨ns1, evs ++ [Event.evalDefine n], some (RunError.defineEvalFailed n msg)⟩) := by
  have hsplit := processDefines_append evalE pre (d :: post) ns0
  rw [hpre] at hsplit
  simp only at hsplit
  constructor
  · intro v hv
    refine ⟨?_, nsLookup_nsSet ns1 n v⟩
    rw [hsplit]
    simp only [processDefines, hparse, hv]
  · intro msg hmsg
    rw [hsplit]
    simp only [processDefines, hparse, hmsg]

/-! ## Concrete data for witnesses -/

/-- A concrete model of Python `eval` for witnesses: the literal `"0"`
evaluates to `0`; a name evaluates to its binding, or raises a NameError
message when unbound. -/
def sampleEval : String → Namespace → Except String Nat :=
  fun e ns =>
    if e = "0" then Except.ok 0
    else
      match nsLookup ns e with
      | some v => Except.ok v
      | none => Except.error "NameError"

/-- A concrete environment for witnesses. -/
def sampleEnv : Env where
  default_calendar := fun _ _ => 5
  eval_expr := sampleEval
  ip_namespace := []
  metrics_registry := fun s => if s = "default" then some 7 else none
  blotter_registry := fun s => if s = "default" then some 8 else none
  us_equity_pricing_columns := ["close", "open"]
  perf := 42
  ext_load_ok := fun s => s != "bad"
  ext_load_cause := fun _ => "boom"
  default_extension_path := "~/.zipline/extension.py"

/-- Concrete arguments for witnesses: a run with live callables, a custom
data portal, a supplied benchmark series and a pickle output path. -/
def sampleArgs : Args where
  handle_data := none
  init_fn := some 1
  before_trading_start := none
  analyze := none
  algofile := none
  algotext := none
  defines := []
  data_frequency := "daily"
  capital_base := 100000
  bundle := "quantopian-quandl"
  bundle_timestamp := none
  custom_data_portal := some 3
  start := "2020-01-06"
  end_ := "2020-01-10"
  output := "out.pickle"
  trading_calendar := none
  print_algo := false
  metrics_set := Sum.inr "default"
  local_namespace := false
  environ := 0
  blotter := Sum.inr "default"
  benchmark_returns := some 9

/-- C5 (witness): `["x=0", "y=x"]` binds `y` to the value of `x` taken from
the namespace built by the earlier assignment. -/
theorem defines_left_to_right_witness :
    processDefines sampleEval (["x=0"] ++ "y=x" :: []) [] =
      (let r := processDefines sampleEval [] (nsSet [("x", 0)] "y" 0)
       ⟨r.ns, [Event.evalDefine "x"] ++ Event.evalDefine "y" :: r.events, r.err⟩) ∧
    nsLookup (nsSet [("x", 0)] "y" 0) "y" = some 0 :=
  (defines_left_to_right sampleEval ["x=0"] [] "y=x" [] [("x", 0)]
    [Event.evalDefine "x"] "y" "x" rfl rfl).1 0 rfl

/-- C6: when `defines` is non-empty and no algorithm source text is
supplied, `_run` fails with the cannot-pass-define-without-algotext
(ConfigurationConflictError) error, before any definition is evaluated. -/
theorem defines_require_algotext (env : Env) (a : Args)
    (halgo : a.algotext = none) (hdef : a.defines ≠ []) :
    (_run env a).2 = Except.error RunError.defineWithoutAlgotext ∧
    ∀ n, Event.evalDefine n ∉ (_run env a).1 := by
  have hns : namespaceStage env a =
      ([], Except.error RunError.defineWithoutAlgotext) := by
    rw [namespaceStage, halgo]
    rcases hd : a.defines with _ | ⟨d, rest⟩
    · exact absurd hd hdef
    · rfl
  have hrun : _run env a =
      ((if a.benchmark_returns.isNone then [Event.loadMarketData] else []) ++ [],
        Except.error RunError.defineWithoutAlgotext) := by
    rw [_run, hns]
  rw [hrun]
  refine ⟨rfl, ?_⟩
  intro n hmem
  by_cases hb : a.benchmark_returns.isNone <;> simp [hb] at hmem

/-- C6 (witness): the conflict error at concrete arguments. -/
theorem defines_require_algotext_witness :
    (_run sampleEnv { sampleArgs with defines := ["a=1"] }).2 =
      Except.error RunError.defineWithoutAlgotext ∧
    Event.evalDefine "a" ∉ (_run sampleEnv { sampleArgs with defines := ["a=1"] }).1 :=
  ⟨(defines_require_algotext sampleEnv { sampleArgs with defines := ["a=1"] }
      rfl (by decide)).1,
   (defines_require_algotext sampleEnv { sampleArgs with defines := ["a=1"] }
      rfl (by decide)).2 "a"⟩

/-- C7: a metrics-set or blotter argument that is already an instance
passes through unchanged; a string identifier is resolved through the
registry for its kind; an unregistered string fails with the
unknown-component error naming the identifier and the kind. -/
theorem resolveComponent_spec (kind : String) (registry : String → Option Nat) :
    (∀ inst : Nat, resolveComponent kind registry (Sum.inl inst) = Except.ok inst) ∧
    (∀ (s : String) (inst : Nat), registry s = some inst →
      resolveComponent kind registry (Sum.inr s) = Except.ok inst) ∧
    (∀ s : String, registry s = none →
      resolveComponent kind registry (Sum.inr s) =
        Except.error (RunError.unknownComponent kind s)) := by
  refine ⟨fun inst => rfl, ?_, ?_⟩
  · intro s inst hs
    simp [resolveComponent, hs]
  · intro s hs
    simp [resolveComponent, hs]

/-- C7 (witness): resolution against the sample metrics registry. -/
theorem resolveComponent_spec_witness :
    resolveComponent "metrics set" sampleEnv.metrics_registry (Sum.inr "default") =
      Except.ok 7 ∧
    resolveComponent "metrics set" sampleEnv.metrics_registry (Sum.inr "nope") =
      Except.error (RunError.unknownComponent "metrics set" "nope") :=
  ⟨(resolveComponent_spec "metrics set" sampleEnv.metrics_registry).2.1
      "default" 7 rfl,
   (resolveComponent_spec "metrics set" sampleEnv.metrics_registry).2.2
      "nope" rfl⟩

/-- C8: `choose_loader` returns the pricing pipeline loader for every
column in the registered US-equity pricing column set, and for any other
column fails with the no-loader-registered error naming that column. -/
theorem choose_loader_spec (columns : List String) (pipeline_loader : Nat)
    (column : String) :
    (column ∈ columns →
      choose_loader columns pipeline_loader column = Except.ok pipeline_loader) ∧
    (column ∉ columns →
      choose_loader columns pipeline_loader column =
        Except.error ("No PipelineLoader registered for column " ++ column ++ ".")) := by
  constructor
  · intro h
    simp [choose_loader, h]
  · intro h
    simp [choose_loader, h]

/-- C8 (witness): dispatch over the sample column set. -/
theorem choose_loader_spec_witness :
    choose_loader ["close", "open"] 5 "close" = Except.ok 5 ∧
    choose_loader ["close", "open"] 5 "volume" =
      Except.error ("No PipelineLoader registered for column " ++ "volume" ++ ".") :=
  ⟨(choose_loader_spec ["close", "open"] 5 "close").1 (by decide),
   (choose_loader_spec ["close", "open"] 5 "volume").2 (by decide)⟩

/-! ## Extension loading (claims C1, C2) -/

/-- The execution log only grows: later processing never removes an
execution already recorded. -/
theorem loadExtList_count_mono (ok : String → Bool) (cause : String → String)
    (strict reload : Bool) (ext : String) :
    ∀ (exts : List String) (st : ExtState),
      st.execLog.count ext ≤
        (loadExtList ok cause strict reload exts st).1.execLog.count ext := by
  intro exts
  induction exts with
  | nil => intro st; simp [loadExtList]
  | cons e rest ih =>
    intro st
    simp only [loadExtList]
    split
    next => exact ih st
    next =>
      split
      next =>
        refine le_trans ?_ (ih _)
        simp [List.count_append]
      next =>
        split
        next => simp [List.count_append]
        next =>
          refine le_trans ?_ (ih _)
          simp [List.count_append]

/-- The loaded set only grows. -/
theorem loadExtList_loaded_mono (ok : String → Bool) (cause : String → String)
    (strict reload : Bool) (x : String) :
    ∀ (exts : List String) (st : ExtState), x ∈ st.loaded →
      x ∈ (loadExtList ok cause strict reload exts st).1.loaded := by
  intro exts
  induction exts with
  | nil => intro st h; simpa [loadExtList] using h
  | cons e rest ih =>
    intro st h
    simp only [loadExtList]
    split
    next => exact ih st h
    next =>
      split
      next => exact ih _ (by simp [List.mem_insert_iff, h])
      next =>
        split
        next => exact h
        next => exact ih _ h

/-- Only identifiers whose load succeeds are ever added to the loaded set. -/
theorem loadExtList_loaded_src (ok : String → Bool) (cause : String → String)
    (strict reload : Bool) (ext : String) :
    ∀ (exts : List String) (st : ExtState),
      ext ∈ (loadExtList ok cause strict reload exts st).1.loaded →
        ext ∈ st.loaded ∨ ok ext = true := by
  intro exts
  induction exts with
  | nil => intro st h; left; simpa [loadExtList] using h
  | cons e rest ih =>
    intro st h
    simp only [loadExtList] at h
    split at h
    next => exact ih st h
    next =>
      split at h
      next hoke =>
        rcases ih _ h with hmem | hokx
        · rcases List.mem_insert_iff.mp hmem with rfl | hmem
          · right; exact hoke
          · left; exact hmem
        · right; exact hokx
      next =>
        split at h
        next => left; exact h
        next =>
          rcases ih _ h with hmem | hokx
          · left; exact hmem
          · right; exact hokx

/-- A non-strict call never re-raises. -/
theorem loadExtList_nonstrict_no_raise (ok : String → Bool)
    (cause : String → String) (reload : Bool) :
    ∀ (exts : List String) (st : ExtState),
      (loadExtList ok cause false reload exts st).2 = none := by
  intro exts
  induction exts with
  | nil => intro st; simp [loadExtList]
  | cons e rest ih =>
    intro st
    simp only [loadExtList]
    split
    next => exact ih st
    next =>
      split
      next => exact ih _
      next =>
        split
        next hs => exact absurd hs (by simp)
        next => exact ih _

/-- A strict call that did not raise behaves exactly like the non-strict
call: no failure was ever hit. -/
theorem loadExtList_no_raise_strict_eq (ok : String → Bool)
    (cause : String → String) (reload : Bool) :
    ∀ (exts : List String) (st st1 : ExtState),
      loadExtList ok cause true reload exts st = (st1, none) →
        loadExtList ok cause false reload exts st = (st1, none) := by
  intro exts
  induction exts with
  | nil =>
    intro st st1 h
    simp only [loadExtList] at h ⊢
    exact h
  | cons e rest ih =>
    intro st st1 h
    simp only [loadExtList] at h ⊢
    split at h
    next hc => rw [if_pos hc]; exact ih st st1 h
    next hc =>
      rw [if_neg hc]
      split at h
      next hoke => rw [if_pos hoke]; exact ih _ st1 h
      next hoke =>
        rw [if_neg hoke]
        split at h
        next => exact absurd (congrArg Prod.snd h) (by simp)
        next hs => exact absurd trivial hs

/-- The loop processes a concatenation left to right, stopping at a raise. -/
theorem loadExtList_append (ok : String → Bool) (cause : String → String)
    (strict reload : Bool) :
    ∀ (l1 l2 : List String) (st : ExtState),
      loadExtList ok cause strict reload (l1 ++ l2) st =
        match loadExtList ok cause strict reload l1 st with
        | (st1, none) => loadExtList ok cause strict reload l2 st1
        | (st1, some x) => (st1, some x) := by
  intro l1
  induction l1 with
  | nil => intro l2 st; simp [loadExtList]
  | cons e rest ih =>
    intro l2 st
    rw [List.cons_append]
    simp only [loadExtList]
    split
    next => exact ih l2 st
    next =>
      split
      next => exact ih l2 _
      next =>
        split
        next => rfl
        next => exact ih l2 _

/-- An identifier that keeps failing and is listed is executed at least
once more by a non-strict, non-reload call whenever it is not in the
loaded set. -/
theorem loadExtList_failed_retried (ok : String → Bool)
    (cause : String → String) (ext : String) (hok : ok ext = false) :
    ∀ (exts : List String) (st : ExtState), ext ∈ exts → ext ∉ st.loaded →
      st.execLog.count ext + 1 ≤
        (loadExtList ok cause false false exts st).1.execLog.count ext := by
  intro exts
  induction exts with
  | nil => intro st h; simp at h
  | cons e rest ih =>
    intro st hmem hnotin
    simp only [loadExtList]
    split
    next hskip =>
      have he : e ≠ ext := fun h => hnotin (h ▸ hskip.1)
      have hrest : ext ∈ rest := by
        rcases List.mem_cons.mp hmem with h | h
        · exact absurd h.symm he
        · exact h
      exact ih st hrest hnotin
    next hskip =>
      by_cases he : e = ext
      · subst he
        rw [if_neg (by simp [hok]), if_neg (by simp)]
        refine le_trans ?_ (loadExtList_count_mono ok cause false false e rest _)
        simp [List.count_append]
      · have hrest : ext ∈ rest := by
          rcases List.mem_cons.mp hmem with h | h
          · exact absurd h.symm he
          · exact h
        split
        next =>
          refine le_trans ?_ (ih _ hrest ?_)
          · simp [List.count_append, List.count_singleton', he]
          · rw [List.mem_insert_iff]
            rintro (h | h)
            · exact he h.symm
            · exact hnotin h
        next =>
          split
          next hs => exact absurd hs (by simp)
          next =>
            refine le_trans ?_ (ih _ hrest hnotin)
            simp [List.count_append, List.count_singleton', he]

/-- Step equation: an identifier already in the loaded set is skipped when
`reload` is false. -/
theorem loadExtList_cons_skip (ok : String → Bool) (cause : String → String)
    (strict : Bool) (e : String) (rest : List String) (st : ExtState)
    (h : e ∈ st.loaded) :
    loadExtList ok cause strict false (e :: rest) st =
      loadExtList ok cause strict false rest st := by
  simp only [loadExtList]
  rw [if_pos ⟨h, trivial⟩]

/-- Step equation: a successful load appends an execution and commits the
identifier to the loaded set. -/
theorem loadExtList_cons_ok (ok : String → Bool) (cause : String → String)
    (strict reload : Bool) (e : String) (rest : List String) (st : ExtState)
    (h : ¬ (e ∈ st.loaded ∧ reload = false)) (hoke : ok e = true) :
    loadExtList ok cause strict reload (e :: rest) st =
      loadExtList ok cause strict reload rest
        ⟨List.insert e st.loaded, st.execLog ++ [e], st.warnings⟩ := by
  simp only [loadExtList]
  rw [if_neg h, if_pos hoke]

/-- Step equation: under `strict`, a failing load re-raises at once, with
the execution recorded and the loaded set untouched. -/
theorem loadExtList_cons_fail_strict (ok : String → Bool)
    (cause : String → String) (reload : Bool) (e : String)
    (rest : List String) (st : ExtState)
    (h : ¬ (e ∈ st.loaded ∧ reload = false)) (hoke : ok e = false) :
    loadExtList ok cause true reload (e :: rest) st =
      (⟨st.loaded, st.execLog ++ [e], st.warnings⟩, some e) := by
  simp only [loadExtList]
  rw [if_neg h, if_neg (by simp [hoke]), if_pos trivial]

/-- Step equation: without `strict`, a failing load records a warning with
the identifier and its cause and the loop continues; the identifier is not
added to the loaded set. -/
theorem loadExtList_cons_fail_warn (ok : String → Bool)
    (cause : String → String) (reload : Bool) (e : String)
    (rest : List String) (st : ExtState)
    (h : ¬ (e ∈ st.loaded ∧ reload = false)) (hoke : ok e = false) :
    loadExtList ok cause false reload (e :: rest) st =
      loadExtList ok cause false reload rest
        ⟨st.loaded, st.execLog ++ [e], st.warnings ++ [(e, cause e)]⟩ := by
  simp only [loadExtList]
  rw [if_neg h, if_neg (by simp [hoke]), if_neg (by simp)]

/-- An identifier whose load succeeds is executed at most once by a
non-reload call: either no new execution of it happens (and its membership
in the loaded set is preserved), or it is executed exactly once and ends up
in the loaded set, having not been in it before. -/
theorem loadExtList_success_once (ok : String → Bool) (cause : String → String)
    (strict : Bool) (ext : String) (hok : ok ext = true) :
    ∀ (exts : List String) (st : ExtState),
      ((loadExtList ok cause strict false exts st).1.execLog.count ext =
          st.execLog.count ext ∧
        (ext ∈ st.loaded →
          ext ∈ (loadExtList ok cause strict false exts st).1.loaded)) ∨
      ((loadExtList ok cause strict false exts st).1.execLog.count ext =
          st.execLog.count ext + 1 ∧
        ext ∈ (loadExtList ok cause strict false exts st).1.loaded ∧
        ext ∉ st.loaded) := by
  intro exts
  induction exts with
  | nil =>
    intro st
    left
    exact ⟨by simp [loadExtList], fun h => by simpa [loadExtList] using h⟩
  | cons e rest ih =>
    intro st
    by_cases hskip : e ∈ st.loaded
    · rw [loadExtList_cons_skip ok cause strict e rest st hskip]
      exact ih st
    · have hcond : ¬ (e ∈ st.loaded ∧ false = false) := fun hc => hskip hc.1
      cases hoke : ok e with
      | true =>
        rw [loadExtList_cons_ok ok cause strict false e rest st hcond hoke]
        by_cases he : e = ext
        · subst he
          rcases ih ⟨List.insert e st.loaded, st.execLog ++ [e], st.warnings⟩ with
            ⟨g1, g2⟩ | ⟨g1, g2, g3⟩
          · right
            refine ⟨?_, g2 (List.mem_insert_self e st.loaded), hskip⟩
            rw [g1]
            simp [List.count_append, List.count_singleton']
          · exact absurd (List.mem_insert_self e st.loaded) g3
        · rcases ih ⟨List.insert e st.loaded, st.execLog ++ [e], st.warnings⟩ with
            ⟨g1, g2⟩ | ⟨g1, g2, g3⟩
          · left
            refine ⟨?_, fun hm => g2 (by rw [List.mem_insert_iff]; right; exact hm)⟩
            rw [g1]
            simp [List.count_append, List.count_singleton', he]
          · right
            refine ⟨?_, g2, fun hm => g3 (by rw [List.mem_insert_iff]; right; exact hm)⟩
            rw [g1]
            simp [List.count_append, List.count_singleton', he]
      | false =>
        have he : e ≠ ext := by
          intro hh
          rw [hh, hok] at hoke
          cases hoke
        cases strict with
        | true =>
          rw [loadExtList_cons_fail_strict ok cause false e rest st hcond hoke]
          left
          refine ⟨?_, fun hm => hm⟩
          simp [List.count_append, List.count_singleton', he]
        | false =>
          rw [loadExtList_cons_fail_warn ok cause false e rest st hcond hoke]
          rcases ih ⟨st.loaded, st.execLog ++ [e], st.warnings ++ [(e, cause e)]⟩ with
            ⟨g1, g2⟩ | ⟨g1, g2, g3⟩
          · left
            refine ⟨?_, fun hm => g2 hm⟩
            rw [g1]
            simp [List.count_append, List.count_singleton', he]
          · right
            refine ⟨?_, g2, g3⟩
            rw [g1]
            simp [List.count_append, List.count_singleton', he]

/-- C1 (counterexample): with an extension whose load always fails,
`strict=False` and `reload=False`, two `load_extensions` calls with
identical arguments execute the extension twice: a failed load is not
added to the loaded set, so the second call does not skip it. -/
theorem load_extensions_twice_counterexample :
    ¬ ((load_extensions (fun _ => false) (fun _ => "boom") false ["a"] false
          "" false
          (load_extensions (fun _ => false) (fun _ => "boom") false ["a"] false
            "" false ⟨[], [], []⟩).1).1.execLog.count "a" ≤ 1) := by
  decide

/-- C1 (amended): across two successive `load_extensions` calls with the
same arguments and `reload=False`, an identifier whose load succeeds is
executed at most once beyond the executions already on record: once loaded
it is in the process-wide loaded set and is skipped.  (An identifier whose
load fails is retried by the second call; see C2.) -/
theorem load_extensions_idempotent_on_success (ok : String → Bool)
    (cause : String → String) (dflt : Bool) (exts : List String)
    (strict : Bool) (dp : String) (st : ExtState) (ext : String)
    (hok : ok ext = true) :
    (load_extensions ok cause dflt exts strict dp false
        (load_extensions ok cause dflt exts strict dp false st).1).1.execLog.count ext
      ≤ st.execLog.count ext + 1 := by
  unfold load_extensions
  rcases loadExtList_success_once ok cause strict ext hok
      (if dflt then dp :: exts else exts) st with ⟨h1, h2⟩ | ⟨h1, h2, h3⟩ <;>
    rcases loadExtList_success_once ok cause strict ext hok
        (if dflt then dp :: exts else exts)
        (loadExtList ok cause strict false (if dflt then dp :: exts else exts) st).1 with
      ⟨g1, g2⟩ | ⟨g1, g2, g3⟩
  · omega
  · omega
  · omega
  · exact absurd h2 g3

/-- C1 (witness): a succeeding extension loaded twice in a row from a fresh
state is executed at most once. -/
theorem load_extensions_idempotent_on_success_witness :
    (load_extensions sampleEnv.ext_load_ok sampleEnv.ext_load_cause false ["a"]
        true "" false
        (load_extensions sampleEnv.ext_load_ok sampleEnv.ext_load_cause false
          ["a"] true "" false ⟨[], [], []⟩).1).1.execLog.count "a"
      ≤ (ExtState.mk [] [] []).execLog.count "a" + 1 :=
  load_extensions_idempotent_on_success sampleEnv.ext_load_ok
    sampleEnv.ext_load_cause false ["a"] true "" ⟨[], [], []⟩ "a" rfl

/-- C2: behaviour of the extension loop at a failing identifier `ext`
after a prefix `pre` that loaded without raising, reaching state `st1`.
Under `strict`, the loop re-raises immediately after executing `ext`:
nothing after it is attempted and the identifiers already committed stay in
the loaded set.  Without `strict`, a warning naming `ext` and its cause is
recorded and the loop continues with the rest and never raises; `ext` is
not added to the loaded set, and a second non-reload call over the same
list executes `ext` again. -/
theorem load_extensions_failure_handling (ok : String → Bool)
    (cause : String → String) (pre post : List String) (ext : String)
    (st st1 : ExtState) (hok : ok ext = false)
    (hpre : loadExtList ok cause true false pre st = (st1, none))
    (hnotin : ext ∉ st1.loaded) :
    (loadExtList ok cause true false (pre ++ ext :: post) st =
      (⟨st1.loaded, st1.execLog ++ [ext], st1.warnings⟩, some ext)) ∧
    (loadExtList ok cause false false (pre ++ ext :: post) st =
      loadExtList ok cause false false post
        ⟨st1.loaded, st1.execLog ++ [ext],
          st1.warnings ++ [(ext, cause ext)]⟩) ∧
    (loadExtList ok cause false false (pre ++ ext :: post) st).2 = none ∧
    ext ∉ (loadExtList ok cause false false (pre ++ ext :: post) st).1.loaded ∧
    (loadExtList ok cause false false (pre ++ ext :: post) st).1.execLog.count ext + 1 ≤
      (loadExtList ok cause false false (pre ++ ext :: post)
        (loadExtList ok cause false false (pre ++ ext :: post) st).1).1.execLog.count ext := by
  have hcond : ¬ (ext ∈ st1.loaded ∧ false = false) := fun hc => hnotin hc.1
  have hpre2 : loadExtList ok cause false false pre st = (st1, none) :=
    loadExtList_no_raise_strict_eq ok cause false pre st st1 hpre
  have hstrict : loadExtList ok cause true false (pre ++ ext :: post) st =
      (⟨st1.loaded, st1.execLog ++ [ext], st1.warnings⟩, some ext) := by
    rw [loadExtList_append ok cause true false pre (ext :: post) st, hpre]
    exact loadExtList_cons_fail_strict ok cause false ext post st1 hcond hok
  have hwarn : loadExtList ok cause false false (pre ++ ext :: post) st =
      loadExtList ok cause false false post
        ⟨st1.loaded, st1.execLog ++ [ext], st1.warnings ++ [(ext, cause ext)]⟩ := by
    rw [loadExtList_append ok cause false false pre (ext :: post) st, hpre2]
    exact loadExtList_cons_fail_warn ok cause false ext post st1 hcond hok
  have hnotst : ext ∉ st.loaded := by
    intro hm
    have hmono := loadExtList_loaded_mono ok cause true false ext pre st hm
    rw [hpre] at hmono
    exact hnotin hmono
  have hnotfinal :
      ext ∉ (loadExtList ok cause false false (pre ++ ext :: post) st).1.loaded := by
    intro hm
    rcases loadExtList_loaded_src ok cause false false ext
        (pre ++ ext :: post) st hm with hmem | hokx
    · exact hnotst hmem
    · rw [hok] at hokx
      cases hokx
  refine ⟨hstrict, hwarn, loadExtList_nonstrict_no_raise ok cause false _ st,
    hnotfinal, ?_⟩
  exact loadExtList_failed_retried ok cause ext hok (pre ++ ext :: post) _
    (by simp) hnotfinal

/-- C2 (witness): the failure behaviour at `pre = ["a"]`, failing
identifier `"bad"`, `post = ["c"]` from a fresh state. -/
theorem load_extensions_failure_handling_witness :
    loadExtList sampleEnv.ext_load_ok sampleEnv.ext_load_cause true false
      (["a"] ++ "bad" :: ["c"]) ⟨[], [], []⟩ =
      (⟨["a"], ["a", "bad"], []⟩, some "bad") ∧
    "bad" ∉ (loadExtList sampleEnv.ext_load_ok sampleEnv.ext_load_cause false
      false (["a"] ++ "bad" :: ["c"]) ⟨[], [], []⟩).1.loaded :=
  ⟨(load_extensions_failure_handling sampleEnv.ext_load_ok
      sampleEnv.ext_load_cause ["a"] ["c"] "bad" ⟨[], [], []⟩ ⟨["a"], ["a"], []⟩
      rfl rfl (by decide)).1,
   (load_extensions_failure_handling sampleEnv.ext_load_ok
      sampleEnv.ext_load_cause ["a"] ["c"] "bad" ⟨[], [], []⟩ ⟨["a"], ["a"], []⟩
      rfl rfl (by decide)).2.2.2.1⟩

/-! ## Trace analysis of `_run` (claims C3, C9, C10) -/

theorem mem_ite_singleton {c : Prop} [Decidable c] {x ev : Event}
    (h : ev ∈ (if c then [x] else ([] : List Event))) : ev = x ∧ c := by
  by_cases hc : c
  · rw [if_pos hc] at h
    exact ⟨by simpa using h, hc⟩
  · rw [if_neg hc] at h
    simp at h

theorem mem_outputEvents (output : String) (ev : Event)
    (h : ev ∈ outputEvents output) :
    (ev = Event.echoPerf ∧ output = "-") ∨
    (ev = Event.persistPerf output ∧ output ≠ "-" ∧ output ≠ os_devnull) := by
  rw [outputEvents] at h
  by_cases h1 : output = "-"
  · rw [if_pos h1] at h
    left
    exact ⟨by simpa using h, h1⟩
  · rw [if_neg h1] at h
    by_cases h2 : output = os_devnull
    · rw [if_pos h2] at h
      simp at h
    · rw [if_neg h2] at h
      right
      exact ⟨by simpa using h, h1, h2⟩

/-- The defines loop only emits definition-evaluation events. -/
theorem processDefines_events_shape (evalE : String → Namespace → Except String Nat) :
    ∀ (l : List String) (ns : Namespace) (ev : Event),
      ev ∈ (processDefines evalE l ns).events → ∃ n, ev = Event.evalDefine n := by
  intro l
  induction l with
  | nil => intro ns ev h; simp [processDefines] at h
  | cons assign rest ih =>
    intro ns ev h
    rw [processDefines] at h
    split at h
    next => simp at h
    next n e hp =>
      split at h
      next msg he =>
        simp at h
        exact ⟨n, h⟩
      next v he =>
        simp only [List.mem_cons] at h
        rcases h with h | h
        · exact ⟨n, h⟩
        · exact ih _ ev h

/-- The namespace stage only emits definition-evaluation events. -/
theorem namespaceStage_events_shape (env : Env) (a : Args) (ev : Event)
    (h : ev ∈ (namespaceStage env a).1) : ∃ n, ev = Event.evalDefine n := by
  simp only [namespaceStage] at h
  split at h
  next t =>
    split at h
    next e herr => exact processDefines_events_shape env.eval_expr _ _ ev h
    next herr => exact processDefines_events_shape env.eval_expr _ _ ev h
  next =>
    split at h
    next => simp at h
    next => simp at h

/-- Decomposition of the events accumulated before the simulation runs. -/
theorem mem_ev3_cases (a : Args) (evs : List Event) (ev : Event)
    (hevs : ∀ x ∈ evs, ∃ n, x = Event.evalDefine n)
    (h : ev ∈ (if a.benchmark_returns.isNone then [Event.loadMarketData] else [])
        ++ evs ++ (if a.print_algo then [Event.printAlgoSource] else [])
        ++ [Event.loadBundle a.bundle]
        ++ (if a.custom_data_portal.isNone then [Event.buildDataPortal] else [])) :
    ev = Event.loadMarketData ∨ (∃ n, ev = Event.evalDefine n) ∨
    (ev = Event.printAlgoSource ∧ a.print_algo = true) ∨
    ev = Event.loadBundle a.bundle ∨ ev = Event.buildDataPortal := by
  rcases List.mem_append.mp h with h | h
  · rcases List.mem_append.mp h with h | h
    · rcases List.mem_append.mp h with h | h
      · rcases List.mem_append.mp h with h | h
        · left
          exact (mem_ite_singleton h).1
        · right; left
          exact hevs ev h
      · right; right; left
        exact mem_ite_singleton h
    · right; right; right; left
      simpa using h
  · right; right; right; right
    exact (mem_ite_singleton h).1

/-- Every event `_run` emits is accounted for by the run's configuration:
in particular an echo happens only under the `"-"` output, a persist only
at the run's own output path when it is not a sentinel, and a source echo
only when `print_algo` is set. -/
theorem run_trace_cases (env : Env) (a : Args) (ev : Event)
    (h : ev ∈ (_run env a).1) :
    ev = Event.loadMarketData ∨ (∃ n, ev = Event.evalDefine n) ∨
    (ev = Event.printAlgoSource ∧ a.print_algo = true) ∨
    ev = Event.loadBundle a.bundle ∨ ev = Event.buildDataPortal ∨
    ev = Event.runSim ∨
    (ev = Event.echoPerf ∧ a.output = "-") ∨
    (ev = Event.persistPerf a.output ∧ a.output ≠ "-" ∧
      a.output ≠ os_devnull) := by
  simp only [_run] at h
  split at h
  next evs e heq =>
    rcases List.mem_append.mp h with h | h
    · left
      exact (mem_ite_singleton h).1
    · right; left
      exact namespaceStage_events_shape env a ev (by rw [heq]; exact h)
  next evs ns at' heq =>
    have hevs : ∀ x ∈ evs, ∃ n, x = Event.evalDefine n := fun x hx =>
      namespaceStage_events_shape env a x (by rw [heq]; exact hx)
    split at h
    next hlt =>
      rcases List.mem_append.mp h with h | h
      · rcases List.mem_append.mp h with h | h
        · left
          exact (mem_ite_singleton h).1
        · right; left
          exact hevs ev h
      · right; right; left
        exact mem_ite_singleton h
    next hlt =>
      have hbig : ev ∈ (if a.benchmark_returns.isNone then [Event.loadMarketData] else [])
          ++ evs ++ (if a.print_algo then [Event.printAlgoSource] else [])
          ++ [Event.loadBundle a.bundle]
          ++ (if a.custom_data_portal.isNone then [Event.buildDataPortal] else []) →
          ev = Event.loadMarketData ∨ (∃ n, ev = Event.evalDefine n) ∨
          (ev = Event.printAlgoSource ∧ a.print_algo = true) ∨
          ev = Event.loadBundle a.bundle ∨ ev = Event.buildDataPortal ∨
          ev = Event.runSim ∨
          (ev = Event.echoPerf ∧ a.output = "-") ∨
          (ev = Event.persistPerf a.output ∧ a.output ≠ "-" ∧
            a.output ≠ os_devnull) := by
        intro hm
        rcases mem_ev3_cases a evs ev hevs hm with h | h | h | h | h
        · left; exact h
        · right; left; exact h
        · right; right; left; exact h
        · right; right; right; left; exact h
        · right; right; right; right; left; exact h
      split at h
      next e2 heq2 => exact hbig h
      next m heq2 =>
        split at h
        next e3 heq3 => exact hbig h
        next b heq3 =>
          rcases List.mem_append.mp h with h | h
          · rcases List.mem_append.mp h with h | h
            · exact hbig h
            · right; right; right; right; right; left
              simpa using h
          · rcases mem_outputEvents a.output ev h with h | h
            · right; right; right; right; right; right; left; exact h
            · right; right; right; right; right; right; right; exact h

/-- Either `_run` fails, or it returns the simulation's performance record
with a trace that ends in the output-routing events. -/
theorem run_result_shape (env : Env) (a : Args) :
    (∃ e, (_run env a).2 = Except.error e) ∨
    ((_run env a).2 = Except.ok env.perf ∧
      ∃ evs, (_run env a).1 = evs ++ outputEvents a.output) := by
  rcases heq1 : namespaceStage env a with ⟨evs, r⟩
  rcases r with e | ⟨ns, at'⟩
  · left
    refine ⟨e, ?_⟩
    simp only [_run, heq1]
  · by_cases hlt : (a.trading_calendar.getD env.default_calendar) a.start a.end_ < 1
    · left
      refine ⟨RunError.emptyDateRange a.start a.end_, ?_⟩
      simp only [_run, heq1, if_pos hlt]
    · rcases heq2 : resolveComponent "metrics set" env.metrics_registry
          a.metrics_set with e2 | m
      · left
        refine ⟨e2, ?_⟩
        simp only [_run, heq1, if_neg hlt, heq2]
      · rcases heq3 : resolveComponent "blotter" env.blotter_registry
            a.blotter with e3 | b
        · left
          refine ⟨e3, ?_⟩
          simp only [_run, heq1, if_neg hlt, heq2, heq3]
        · right
          constructor
          · simp only [_run, heq1, if_neg hlt, heq2, heq3]
          · refine ⟨((if a.benchmark_returns.isNone then [Event.loadMarketData] else [])
              ++ evs ++ (if a.print_algo then [Event.printAlgoSource] else [])
              ++ [Event.loadBundle a.bundle]
              ++ (if a.custom_data_portal.isNone then [Event.buildDataPortal] else []))
              ++ [Event.runSim], ?_⟩
            simp only [_run, heq1, if_neg hlt, heq2, heq3]

/-- An environment whose default calendar reports a session distance of
zero for every date pair. -/
def sampleEnvEmptyRange : Env :=
  { sampleEnv with default_calendar := fun _ _ => 0 }

/-- C3 (counterexample): when no benchmark series is supplied, benchmark
market data is read before the date validation fails, so the validation
does not run before all market data reads; and a run whose defines are
malformed fails with the invalid-define error rather than the
empty-date-range error even though its session distance is below one. -/
theorem date_validation_counterexample :
    _run sampleEnvEmptyRange
        { sampleArgs with benchmark_returns := none, end_ := "2020-01-06" } =
      ([Event.loadMarketData],
        Except.error (RunError.emptyDateRange "2020-01-06" "2020-01-06")) ∧
    (_run sampleEnvEmptyRange
        { sampleArgs with
          algotext := some "algo"
          defines := ["oops"]
          end_ := "2020-01-06" }).2 =
      Except.error (RunError.invalidDefine "oops") :=
  ⟨rfl, rfl⟩

/-- C3 (amended): provided the definition phase completed, a run whose
session distance is below one fails with the empty-date-range error naming
the two dates, before the bundle is loaded, before the data portal is
built and before the simulation runs; benchmark market data, however, is
read before this validation whenever no benchmark series was supplied. -/
theorem empty_date_range_before_bundle (env : Env) (a : Args)
    (evs : List Event) (ns : Namespace) (at' : Option String)
    (hns : namespaceStage env a = (evs, Except.ok (ns, at')))
    (hdist : (a.trading_calendar.getD env.default_calendar) a.start a.end_ < 1) :
    (_run env a).2 = Except.error (RunError.emptyDateRange a.start a.end_) ∧
    (∀ b, Event.loadBundle b ∉ (_run env a).1) ∧
    Event.buildDataPortal ∉ (_run env a).1 ∧
    Event.runSim ∉ (_run env a).1 ∧
    (a.benchmark_returns ≠ none → Event.loadMarketData ∉ (_run env a).1) := by
  have hrun : _run env a =
      ((if a.benchmark_returns.isNone then [Event.loadMarketData] else []) ++ evs
        ++ (if a.print_algo then [Event.printAlgoSource] else []),
        Except.error (RunError.emptyDateRange a.start a.end_)) := by
    simp only [_run, hns, if_pos hdist]
  have hshape : ∀ x ∈ ((if a.benchmark_returns.isNone then [Event.loadMarketData]
        else []) ++ evs ++ (if a.print_algo then [Event.printAlgoSource] else [])),
      x = Event.loadMarketData ∨ (∃ n, x = Event.evalDefine n) ∨
        x = Event.printAlgoSource := by
    intro x hx
    rcases List.mem_append.mp hx with hx | hx
    · rcases List.mem_append.mp hx with hx | hx
      · left
        exact (mem_ite_singleton hx).1
      · right; left
        exact namespaceStage_events_shape env a x (by rw [hns]; exact hx)
    · right; right
      exact (mem_ite_singleton hx).1
  rw [hrun]
  refine ⟨rfl, ?_, ?_, ?_, ?_⟩
  · intro b hmem
    rcases hshape _ hmem with h | ⟨n, h⟩ | h <;> cases h
  · intro hmem
    rcases hshape _ hmem with h | ⟨n, h⟩ | h <;> cases h
  · intro hmem
    rcases hshape _ hmem with h | ⟨n, h⟩ | h <;> cases h
  · intro hbench hmem
    have hfalse : a.benchmark_returns.isNone = false := by
      rcases hb : a.benchmark_returns with _ | v
      · exact absurd hb hbench
      · rfl
    rw [hfalse] at hmem
    simp only [if_neg Bool.false_ne_true, List.nil_append] at hmem
    rcases List.mem_append.mp hmem with hx | hx
    · rcases namespaceStage_events_shape env a _ (by rw [hns]; exact hx) with ⟨n, h⟩
      cases h
    · rcases mem_ite_singleton hx with ⟨h, _⟩
      cases h

/-- C3 (witness): the amended statement at a concrete run with a supplied
benchmark series and an empty session range. -/
theorem empty_date_range_before_bundle_witness :
    (_run sampleEnvEmptyRange { sampleArgs with end_ := "2020-01-06" }).2 =
      Except.error (RunError.emptyDateRange "2020-01-06" "2020-01-06") ∧
    Event.loadBundle "quantopian-quandl" ∉
      (_run sampleEnvEmptyRange { sampleArgs with end_ := "2020-01-06" }).1 :=
  ⟨(empty_date_range_before_bundle sampleEnvEmptyRange
      { sampleArgs with end_ := "2020-01-06" } [] [] none rfl (by decide)).1,
   (empty_date_range_before_bundle sampleEnvEmptyRange
      { sampleArgs with end_ := "2020-01-06" } [] [] none rfl (by decide)).2.1
     "quantopian-quandl"⟩

/-- C9: output routing of a completed run is decided solely by the output
destination: `"-"` echoes the result and does not persist it, `os.devnull`
neither echoes nor persists, and any other destination persists the result
there and does not echo; in every case the simulation's performance record
is the value returned. -/
theorem output_routing_spec (env : Env) (a : Args) (p : Nat)
    (h : (_run env a).2 = Except.ok p) :
    p = env.perf ∧
    (a.output = "-" → Event.echoPerf ∈ (_run env a).1 ∧
      ∀ pth, Event.persistPerf pth ∉ (_run env a).1) ∧
    (a.output = os_devnull → Event.echoPerf ∉ (_run env a).1 ∧
      ∀ pth, Event.persistPerf pth ∉ (_run env a).1) ∧
    (a.output ≠ "-" → a.output ≠ os_devnull →
      Event.persistPerf a.output ∈ (_run env a).1 ∧
      Event.echoPerf ∉ (_run env a).1) := by
  rcases run_result_shape env a with ⟨e, he⟩ | ⟨hok, evs, htr⟩
  · rw [he] at h
    cases h
  · have hp : p = env.perf := by
      rw [hok] at h
      injection h with h
      exact h.symm
    refine ⟨hp, ?_, ?_, ?_⟩
    · intro hout
      constructor
      · rw [htr, hout]
        simp [outputEvents]
      · intro pth hmem
        rcases run_trace_cases env a _ hmem with
          h1 | ⟨n, h1⟩ | ⟨h1, _⟩ | h1 | h1 | h1 | ⟨h1, _⟩ | ⟨_, h2, _⟩
        · cases h1
        · cases h1
        · cases h1
        · cases h1
        · cases h1
        · cases h1
        · cases h1
        · exact h2 hout
    · intro hout
      constructor
      · intro hmem
        rcases run_trace_cases env a _ hmem with
          h1 | ⟨n, h1⟩ | ⟨h1, _⟩ | h1 | h1 | h1 | ⟨_, h2⟩ | ⟨h1, _⟩
        · cases h1
        · cases h1
        · cases h1
        · cases h1
        · cases h1
        · cases h1
        · rw [hout] at h2
          exact absurd h2 (by decide)
        · cases h1
      · intro pth hmem
        rcases run_trace_cases env a _ hmem with
          h1 | ⟨n, h1⟩ | ⟨h1, _⟩ | h1 | h1 | h1 | ⟨h1, _⟩ | ⟨_, _, h3⟩
        · cases h1
        · cases h1
        · cases h1
        · cases h1
        · cases h1
        · cases h1
        · cases h1
        · exact h3 hout
    · intro hne1 hne2
      constructor
      · rw [htr, outputEvents, if_neg hne1, if_neg hne2]
        exact List.mem_append_right _ (by simp)
      · intro hmem
        rcases run_trace_cases env a _ hmem with
          h1 | ⟨n, h1⟩ | ⟨h1, _⟩ | h1 | h1 | h1 | ⟨_, h2⟩ | ⟨h1, _⟩
        · cases h1
        · cases h1
        · cases h1
        · cases h1
        · cases h1
        · cases h1
        · exact hne1 h2
        · cases h1

/-- C9 (witness): a completed concrete run persisting to a pickle path. -/
theorem output_routing_spec_witness :
    Event.persistPerf "out.pickle" ∈ (_run sampleEnv sampleArgs).1 ∧
    Event.echoPerf ∉ (_run sampleEnv sampleArgs).1 :=
  (output_routing_spec sampleEnv sampleArgs 42 rfl).2.2.2 (by decide) (by decide)

/-- C10: a run started through `run_algorithm` never echoes the result,
never persists it and never echoes the algorithm source, whatever its
arguments: it always passes `output=os.devnull` and `print_algo=False` to
`_run`; the performance record is delivered only as the return value. -/
theorem run_algorithm_no_output_effects (env : Env) (st : ExtState)
    (start end_ : String) (init_fn : Nat) (capital_base : Nat)
    (handle_data before_trading_start analyze : Option Nat)
    (data_frequency : String) (bundle : String) (bundle_timestamp : Option Nat)
    (data_portal : Option Nat)
    (trading_calendar : Option (String → String → Int))
    (metrics_set : Nat ⊕ String) (benchmark_returns : Option Nat)
    (default_extension : Bool) (extensions : List String)
    (strict_extensions : Bool) (environ : Nat) (blotter : Nat ⊕ String)
    (st2 : ExtState) (tr : List Event) (res : Except RunError Nat)
    (hr : run_algorithm env st start end_ init_fn capital_base handle_data
      before_trading_start analyze data_frequency bundle bundle_timestamp
      data_portal trading_calendar metrics_set benchmark_returns
      default_extension extensions strict_extensions environ blotter =
        (st2, (tr, res))) :
    Event.echoPerf ∉ tr ∧ (∀ pth, Event.persistPerf pth ∉ tr) ∧
    Event.printAlgoSource ∉ tr ∧
    (∀ q, res = Except.ok q → q = env.perf) := by
  simp only [run_algorithm] at hr
  split at hr
  next st3 failedExt heq =>
    simp only [Prod.mk.injEq] at hr
    obtain ⟨h1, h2, h3⟩ := hr
    subst h2
    subst h3
    refine ⟨by simp, fun pth => by simp, by simp, ?_⟩
    intro q hq
    cases hq
  next st3 heq =>
    simp only [Prod.mk.injEq] at hr
    obtain ⟨h1, h2⟩ := hr
    set A : Args :=
      { handle_data := handle_data
        init_fn := some init_fn
        before_trading_start := before_trading_start
        analyze := analyze
        algofile := none
        algotext := none
        defines := []
        data_frequency := data_frequency
        capital_base := capital_base
        bundle := bundle
        bundle_timestamp := bundle_timestamp
        custom_data_portal := data_portal
        start := start
        end_ := end_
        output := os_devnull
        trading_calendar := trading_calendar
        print_algo := false
        metrics_set := metrics_set
        local_namespace := false
        environ := environ
        blotter := blotter
        benchmark_returns := benchmark_returns } with hA
    refine ⟨?_, ?_, ?_, ?_⟩
    · intro hmem
      have hm2 : Event.echoPerf ∈ (_run env A).1 := by rw [h2]; exact hmem
      rcases run_trace_cases env A _ hm2 with
        g1 | ⟨n, g1⟩ | ⟨g1, _⟩ | g1 | g1 | g1 | ⟨_, g2⟩ | ⟨g1, _⟩
      · cases g1
      · cases g1
      · cases g1
      · cases g1
      · cases g1
      · cases g1
      · exact absurd (show os_devnull = "-" from g2) (by decide)
      · cases g1
    · intro pth hmem
      have hm2 : Event.persistPerf pth ∈ (_run env A).1 := by rw [h2]; exact hmem
      rcases run_trace_cases env A _ hm2 with
        g1 | ⟨n, g1⟩ | ⟨g1, _⟩ | g1 | g1 | g1 | ⟨g1, _⟩ | ⟨_, _, g3⟩
      · cases g1
      · cases g1
      · cases g1
      · cases g1
      · cases g1
      · cases g1
      · cases g1
      · exact g3 (show A.output = os_devnull from rfl)
    · intro hmem
      have hm2 : Event.printAlgoSource ∈ (_run env A).1 := by rw [h2]; exact hmem
      rcases run_trace_cases env A _ hm2 with
        g1 | ⟨n, g1⟩ | ⟨_, g2⟩ | g1 | g1 | g1 | ⟨g1, _⟩ | ⟨g1, _⟩
      · cases g1
      · cases g1
      · exact absurd (show false = true from g2) (by decide)
      · cases g1
      · cases g1
      · cases g1
      · cases g1
      · cases g1
    · intro q hq
      have hres : (_run env A).2 = Except.ok q := by rw [h2]; exact hq
      rcases run_result_shape env A with ⟨e, he⟩ | ⟨hok2, _⟩
      · rw [he] at hres
        cases hres
      · rw [hok2] at hres
        injection hres with h4
        exact h4.symm

/-- C10 (witness): a concrete `run_algorithm` run returning its
performance record with an output-free trace. -/
theorem run_algorithm_no_output_effects_witness :
    Event.echoPerf ∉ [Event.loadBundle "quantopian-quandl", Event.runSim] ∧
    (42 : Nat) = sampleEnv.perf :=
  ⟨(run_algorithm_no_output_effects sampleEnv ⟨[], [], []⟩ "2020-01-06"
      "2020-01-10" 1 100000 none none none "daily" "quantopian-quandl" none
      (some 3) none (Sum.inr "default") (some 9) false [] true 0
      (Sum.inr "default") ⟨[], [], []⟩
      [Event.loadBundle "quantopian-quandl", Event.runSim]
      (Except.ok 42) rfl).1,
   (run_algorithm_no_output_effects sampleEnv ⟨[], [], []⟩ "2020-01-06"
      "2020-01-10" 1 100000 none none none "daily" "quantopian-quandl" none
      (some 3) none (Sum.inr "default") (some 9) false [] true 0
      (Sum.inr "default") ⟨[], [], []⟩
      [Event.loadBundle "quantopian-quandl", Event.runSim]
      (Except.ok 42) rfl).2.2.2 42 rfl⟩
